import Mathlib

/-!
# Verification of `shared/XrUtility/XrActionContext.h`

Shallow embedding of the OpenXR action-context utility layer:

* `ActionSet` groups actions sharing one native action-set handle, an
  activation flag and the (deduplicated, ordered) set of declared
  sub-action paths (`std::set<XrPath>` is modelled as a strictly sorted
  `List XrPath`, iterated in ascending order exactly like `std::set`).
* `ActionContext` owns a sequence of `ActionSet`s and a pending table
  mapping an interaction-profile path to the accumulated
  (action, binding-path-string) pairs.  The C++ table is an
  `unordered_map` built solely through `operator[]`/`emplace_back`; it is
  modelled as an association list with unique keys in insertion order
  (`mapAppend` appends the value to the entry of the key, creating the
  entry at the end if absent, exactly as `operator[]` + `push_back`).
* The fallible collaborators (`xr::StringToPath`, `xrCreateAction`,
  `xrSuggestInteractionProfileBindings`, `xrAttachSessionActionSets`,
  `xrSyncActions`) are modelled by an `Instance` resolution table and a
  `Runtime` oracle; `CHECK_XRCMD`'s throw-on-failure becomes an
  `Except XrError` result, and the protocol functions additionally
  return the trace of native calls they issued (`List XrCall`).
-/

namespace xr

/-- Opaque OpenXR path identifier (`XrPath`). -/
abbrev XrPath := Nat

/-- Opaque action handle (`XrAction`). -/
abbrev XrAction := Nat

/-- Opaque action-set handle (`XrActionSet`). -/
abbrev XrActionSet := Nat

/-- `XR_NULL_PATH`, the null/wildcard subaction path. -/
def XR_NULL_PATH : XrPath := 0

/-- Error classes surfaced by `CHECK_XRCMD` failures in the modelled code. -/
inductive XrError where
  /-- A path or profile string failed to resolve (`xr::StringToPath`). -/
  | resolutionFailure
  /-- `xrCreateAction` rejected the creation request. -/
  | createFailure
  /-- A protocol call (`xrSuggestInteractionProfileBindings`,
      `xrAttachSessionActionSets`, `xrSyncActions`) failed. -/
  | runtimeFailure
deriving DecidableEq, Repr

/-- The `XrInstance`, reduced to the only capability this layer uses from it:
resolving a path string to an `XrPath` (which may fail). -/
structure Instance where
  stringToPath : String → Option XrPath

/-- `xr::StringToPath(instance, s)`: resolves one string, failure modelled as
`none` (the C++ helper throws). -/
def StringToPath (inst : Instance) (s : String) : Option XrPath :=
  inst.stringToPath s

/-- `xr::StringsToPaths(instance, ss)`: resolves a list of strings, failing as
a whole if any one string fails. -/
def StringsToPaths (inst : Instance) (ss : List String) : Option (List XrPath) :=
  ss.mapM (StringToPath inst)

/-- `std::set<XrPath>::insert`: keeps the list strictly sorted and duplicate
free, exactly the representation `std::set` iterates over in order. -/
def setInsert (p : XrPath) : List XrPath → List XrPath
  | [] => [p]
  | q :: rest =>
      if p < q then p :: q :: rest
      else if p = q then q :: rest
      else q :: setInsert p rest

/-- `XrActionType` (the enum's numeric value; unused by this layer's logic). -/
abbrev XrActionType := Nat

/-- `XrActionSuggestedBinding`: a native (action, resolved binding path) pair. -/
structure XrActionSuggestedBinding where
  action : XrAction
  binding : XrPath
deriving DecidableEq, Repr

/-- `XrActiveActionSet`: an activation record submitted at sync time. -/
structure XrActiveActionSet where
  actionSet : XrActionSet
  subactionPath : XrPath
deriving DecidableEq, Repr

/-- One native call issued to the runtime by the two protocol functions. -/
inductive XrCall where
  | suggestBindings (interactionProfile : XrPath)
      (suggestedBindings : List XrActionSuggestedBinding)
  | attachSessionActionSets (actionSets : List XrActionSet)
  | syncActions (activeActionSets : List XrActiveActionSet)
deriving DecidableEq, Repr

/-- The runtime oracle: decides whether each native protocol call succeeds
(`CHECK_XRCMD` throws on `false`). -/
structure Runtime where
  suggestOk : XrPath → List XrActionSuggestedBinding → Bool
  attachOk : List XrActionSet → Bool
  syncOk : List XrActiveActionSet → Bool

/-- `xr::ActionSet` state (fields named as the C++ members). -/
structure ActionSet where
  m_instance : Instance
  m_actionSet : XrActionSet
  m_actions : List XrAction
  m_active : Bool
  m_declaredSubactionPaths : List XrPath

/-- `ActionSet` constructor: the native set handle was created with empty
action list, `m_active{true}` and no declared subaction paths. -/
def ActionSet.create (inst : Instance) (handle : XrActionSet) : ActionSet :=
  { m_instance := inst
    m_actionSet := handle
    m_actions := []
    m_active := true
    m_declaredSubactionPaths := [] }

/-- `ActionSet::Active()`. -/
def ActionSet.Active (s : ActionSet) : Bool :=
  s.m_active

/-- `ActionSet::SetActive(bool)`. -/
def ActionSet.SetActive (s : ActionSet) (active : Bool) : ActionSet :=
  { s with m_active := active }

/-- `ActionSet::Handle()`. -/
def ActionSet.Handle (s : ActionSet) : XrActionSet :=
  s.m_actionSet

/-- `ActionSet::DeclaredSubactionPaths()` (the `std::set`, in its iteration
order). -/
def ActionSet.DeclaredSubactionPaths (s : ActionSet) : List XrPath :=
  s.m_declaredSubactionPaths

/-- `ActionSet::CreateAction`.  The fallible native `xrCreateAction` call is
modelled by the oracle arguments `createOk` (does the call succeed) and
`newHandle` (the handle it fills on success).  Mirrors the C++ statement
order: resolve the subaction paths (throws = `resolutionFailure`, state
untouched), insert the resolved paths into `m_declaredSubactionPaths`,
then call `xrCreateAction` (failure = `createFailure`, after the insertion),
then append the new action handle. -/
def ActionSet.CreateAction (s : ActionSet) (actionName localizedName : String)
    (actionType : XrActionType) (subactionPaths : List String)
    (createOk : Bool) (newHandle : XrAction) :
    ActionSet × Except XrError XrAction :=
  match StringsToPaths s.m_instance subactionPaths with
  | none => (s, .error .resolutionFailure)
  | some subActionXrPaths =>
      let s1 := { s with
        m_declaredSubactionPaths :=
          subActionXrPaths.foldl (fun d p => setInsert p d)
            s.m_declaredSubactionPaths }
      if createOk then
        ({ s1 with m_actions := s1.m_actions ++ [newHandle] }, .ok newHandle)
      else
        (s1, .error .createFailure)

/-- The arguments of one `CreateAction` call, together with the oracle data
for its native `xrCreateAction` call. -/
structure CreateActionCall where
  actionName : String
  localizedName : String
  actionType : XrActionType
  subactionPaths : List String
  createOk : Bool
  newHandle : XrAction

/-- Run a sequence of `CreateAction` calls on one `ActionSet`, keeping the
state each call leaves behind. -/
def runCreateActions (s : ActionSet) (calls : List CreateActionCall) : ActionSet :=
  calls.foldl
    (fun st c =>
      (st.CreateAction c.actionName c.localizedName c.actionType
        c.subactionPaths c.createOk c.newHandle).1)
    s

/-- `xr::ActionContext` state (fields named as the C++ members);
`m_actionBindings` is the `unordered_map<XrPath, vector<pair<XrAction,
string>>>`, modelled as an association list with unique keys. -/
structure ActionContext where
  m_instance : Instance
  m_actionSets : List ActionSet
  m_actionBindings : List (XrPath × List (XrAction × String))

/-- `ActionContext` constructor. -/
def ActionContext.create (inst : Instance) : ActionContext :=
  { m_instance := inst, m_actionSets := [], m_actionBindings := [] }

/-- `map[k].emplace_back(v)` on an association list: append `v` to the entry
of `k`, creating the entry (at the end, i.e. in insertion order) if absent. -/
def mapAppend {α : Type} (k : XrPath) (v : α) :
    List (XrPath × List α) → List (XrPath × List α)
  | [] => [(k, [v])]
  | (k', vs) :: rest =>
      if k' = k then (k', vs ++ [v]) :: rest
      else (k', vs) :: mapAppend k v rest

/-- `map[k]` read access on an association list (`[]` when the key is absent,
matching a default-constructed vector). -/
def mapLookup {α : Type} (k : XrPath) : List (XrPath × List α) → List α
  | [] => []
  | (k', vs) :: rest => if k' = k then vs else mapLookup k rest

/-- `ActionContext::CreateActionSet`: emplaces a new `ActionSet` (whose native
handle, created by `xrCreateActionSet`, is the oracle argument `newHandle`)
at the back of `m_actionSets` and returns it. -/
def ActionContext.CreateActionSet (ctx : ActionContext) (newHandle : XrActionSet) :
    ActionContext × ActionSet :=
  let s := ActionSet.create ctx.m_instance newHandle
  ({ ctx with m_actionSets := ctx.m_actionSets ++ [s] }, s)

/-- `ActionContext::SuggestInteractionProfileBindings`: resolve the profile
string first (throw = `resolutionFailure`, table untouched), then append each
(action, binding-path-string) pair to that profile's pending list. -/
def ActionContext.SuggestInteractionProfileBindings (ctx : ActionContext)
    (interactionProfile : String)
    (suggestedBindings : List (XrAction × String)) :
    ActionContext × Except XrError Unit :=
  match StringToPath ctx.m_instance interactionProfile with
  | none => (ctx, .error .resolutionFailure)
  | some profilePath =>
      ({ ctx with
          m_actionBindings :=
            suggestedBindings.foldl (fun m ab => mapAppend profilePath ab m)
              ctx.m_actionBindings },
       .ok ())

/-- The (profile, action, binding-string) entries of one context's pending
table, flattened in table iteration order. -/
def contextTriples (ctx : ActionContext) : List (XrPath × XrAction × String) :=
  ctx.m_actionBindings.flatMap (fun pb => pb.2.map (fun ab => (pb.1, ab.1, ab.2)))

/-- All contexts' pending entries, in context order then table order: the
exact order in which `AttachActionsToSession`'s merge loop visits them. -/
def allTriples (actionContexts : List ActionContext) :
    List (XrPath × XrAction × String) :=
  actionContexts.flatMap contextTriples

/-- Resolve each entry's binding string via `xr::StringToPath`; any failure
throws out of the merge loop before any native call is made, which (the
`allBindings` local being discarded) is observably all-or-nothing. -/
def resolveTriples (inst : Instance) :
    List (XrPath × XrAction × String) →
    Option (List (XrPath × XrActionSuggestedBinding))
  | [] => some []
  | (profilePath, actionPath, binding) :: rest =>
      match StringToPath inst binding, resolveTriples inst rest with
      | some bindingPath, some rs =>
          some ((profilePath, ⟨actionPath, bindingPath⟩) :: rs)
      | _, _ => none

/-- Merge phase of `AttachActionsToSession`: build `allBindings`, the map from
interaction profile to the flat vector of resolved suggested bindings, by
visiting every context's entries in order and appending each resolved record
under its profile key. -/
def mergeBindings (inst : Instance) (actionContexts : List ActionContext) :
    Option (List (XrPath × List XrActionSuggestedBinding)) :=
  (resolveTriples inst (allTriples actionContexts)).map
    (fun resolved => resolved.foldl (fun m kr => mapAppend kr.1 kr.2 m) [])

/-- The (action, binding-path-string) pairs a context has accumulated for the
profile `P`, in table order: the entries `SuggestInteractionProfileBindings`
appended under `P`. -/
def contextPairsFor (P : XrPath) (ctx : ActionContext) :
    List (XrAction × String) :=
  ((contextTriples ctx).filter (fun t => t.1 = P)).map (fun t => t.2)

/-- Resolve a list of (action, binding-path-string) pairs to native suggested
bindings, failing as a whole if any string fails (used to state what the
merged per-profile binding list must equal). -/
def resolvePairs (inst : Instance) :
    List (XrAction × String) → Option (List XrActionSuggestedBinding)
  | [] => some []
  | (actionPath, binding) :: rest =>
      match StringToPath inst binding, resolvePairs inst rest with
      | some bindingPath, some rs => some (⟨actionPath, bindingPath⟩ :: rs)
      | _, _ => none

/-- Suggestion phase: one `xrSuggestInteractionProfileBindings` call per entry
of `allBindings`; `CHECK_XRCMD` aborts the loop at the first failing call, so
no call is issued for the remaining profiles.  Returns the outcome and the
calls actually issued (the failing call included). -/
def suggestPhase (rt : Runtime) :
    List (XrPath × List XrActionSuggestedBinding) →
    Except XrError Unit × List XrCall
  | [] => (.ok (), [])
  | (interactionProfile, suggestedBindings) :: rest =>
      if rt.suggestOk interactionProfile suggestedBindings then
        let (r, calls) := suggestPhase rt rest
        (r, .suggestBindings interactionProfile suggestedBindings :: calls)
      else
        (.error .runtimeFailure,
         [.suggestBindings interactionProfile suggestedBindings])

/-- Attach-phase handle collection: every context's action-set handles, in
context order then within-context creation order. -/
def collectActionSetHandles (actionContexts : List ActionContext) :
    List XrActionSet :=
  actionContexts.flatMap (fun c => c.m_actionSets.map ActionSet.Handle)

/-- `xr::AttachActionsToSession`: merge phase, then suggestion phase, then —
only if everything so far succeeded and the handle list is non-empty — one
`xrAttachSessionActionSets` call carrying all handles.  Returns the outcome
and the trace of native calls issued, in order. -/
def AttachActionsToSession (inst : Instance) (rt : Runtime)
    (actionContexts : List ActionContext) :
    Except XrError Unit × List XrCall :=
  match mergeBindings inst actionContexts with
  | none => (.error .resolutionFailure, [])
  | some allBindings =>
      let (r, suggestCalls) := suggestPhase rt allBindings
      match r with
      | .error e => (.error e, suggestCalls)
      | .ok _ =>
          let actionSetHandles := collectActionSetHandles actionContexts
          if actionSetHandles.isEmpty then
            (.ok (), suggestCalls)
          else if rt.attachOk actionSetHandles then
            (.ok (), suggestCalls ++ [.attachSessionActionSets actionSetHandles])
          else
            (.error .runtimeFailure,
             suggestCalls ++ [.attachSessionActionSets actionSetHandles])

/-- The activation records `SyncActions` pushes for one `ActionSet`: none if
inactive; one wildcard record if no subaction path is declared; otherwise one
record per declared path, in the `std::set`'s iteration order. -/
def syncRecordsForSet (actionSet : ActionSet) : List XrActiveActionSet :=
  if !actionSet.Active then []
  else if actionSet.DeclaredSubactionPaths.isEmpty then
    [⟨actionSet.Handle, XR_NULL_PATH⟩]
  else
    actionSet.DeclaredSubactionPaths.map (fun p => ⟨actionSet.Handle, p⟩)

/-- The flat `activeActionSets` vector `SyncActions` accumulates, across all
contexts and sets in order. -/
def syncRecords (actionContexts : List ActionContext) : List XrActiveActionSet :=
  actionContexts.flatMap (fun c => c.m_actionSets.flatMap syncRecordsForSet)

/-- `xr::SyncActions`: accumulate the activation records of every context's
sets; if the vector is non-empty, issue exactly one `xrSyncActions` call with
it, otherwise make no call. -/
def SyncActions (rt : Runtime) (actionContexts : List ActionContext) :
    Except XrError Unit × List XrCall :=
  let activeActionSets := syncRecords actionContexts
  if activeActionSets.isEmpty then (.ok (), [])
  else if rt.syncOk activeActionSets then
    (.ok (), [.syncActions activeActionSets])
  else
    (.error .runtimeFailure, [.syncActions activeActionSets])

/-- Is a traced call a binding-suggestion call? -/
def XrCall.isSuggest : XrCall → Bool
  | .suggestBindings _ _ => true
  | _ => false

/-- Is a traced call an attach call? -/
def XrCall.isAttach : XrCall → Bool
  | .attachSessionActionSets _ => true
  | _ => false

/-- The observable part of an `ActionSet`'s state that the sync protocol reads:
handle, activation flag and declared subaction paths. -/
def ActionSet.syncObs (s : ActionSet) : XrActionSet × Bool × List XrPath :=
  (s.Handle, s.Active, s.m_declaredSubactionPaths)

/-! ## Lemmas about the `std::set` model -/

theorem mem_setInsert (p q : XrPath) (l : List XrPath) :
    q ∈ setInsert p l ↔ q = p ∨ q ∈ l := by
  induction l with
  | nil => simp [setInsert]
  | cons a rest ih =>
    rw [setInsert]
    split
    · simp only [List.mem_cons]
    · split
      · rename_i h1 h2
        subst h2
        simp only [List.mem_cons]
        tauto
      · simp only [List.mem_cons, ih]
        tauto

theorem sorted_setInsert (p : XrPath) {l : List XrPath}
    (h : l.Sorted (· < ·)) : (setInsert p l).Sorted (· < ·) := by
  induction l with
  | nil => simp [setInsert]
  | cons a rest ih =>
    rw [List.sorted_cons] at h
    by_cases h1 : p < a
    · simp only [setInsert, if_pos h1]
      rw [List.sorted_cons]
      refine ⟨?_, ?_⟩
      · intro b hb
        rcases List.mem_cons.1 hb with hb | hb
        · exact hb ▸ h1
        · exact Nat.lt_trans h1 (h.1 b hb)
      · rw [List.sorted_cons]
        exact h
    · by_cases h2 : p = a
      · simp only [setInsert, if_neg h1, if_pos h2]
        rw [List.sorted_cons]
        exact h
      · simp only [setInsert, if_neg h1, if_neg h2]
        rw [List.sorted_cons]
        refine ⟨?_, ih h.2⟩
        intro b hb
        rcases (mem_setInsert p b rest).1 hb with hb | hb
        · exact hb ▸ Nat.lt_of_le_of_ne (Nat.le_of_not_lt h1) (fun e => h2 e.symm)
        · exact h.1 b hb

theorem mem_foldl_setInsert (l : List XrPath) :
    ∀ (d : List XrPath) (q : XrPath),
      q ∈ l.foldl (fun acc p => setInsert p acc) d ↔ q ∈ d ∨ q ∈ l := by
  induction l with
  | nil => simp
  | cons a rest ih =>
    intro d q
    simp only [List.foldl_cons, ih, mem_setInsert, List.mem_cons]
    tauto

theorem sorted_foldl_setInsert (l : List XrPath) :
    ∀ {d : List XrPath}, d.Sorted (· < ·) →
      (l.foldl (fun acc p => setInsert p acc) d).Sorted (· < ·) := by
  induction l with
  | nil =>
    intro d h
    simpa using h
  | cons a rest ih =>
    intro d h
    exact ih (sorted_setInsert a h)

theorem sorted_eq_of_mem_iff {l1 l2 : List XrPath}
    (h1 : l1.Sorted (· < ·)) (h2 : l2.Sorted (· < ·))
    (h : ∀ q, q ∈ l1 ↔ q ∈ l2) : l1 = l2 :=
  List.eq_of_perm_of_sorted ((List.perm_ext_iff_of_nodup h1.nodup h2.nodup).2 h) h1 h2

/-! ## Lemmas about `CreateAction` state evolution -/

theorem CreateAction_m_instance (s : ActionSet) (nm lnm : String)
    (ty : XrActionType) (paths : List String) (ok : Bool) (nh : XrAction) :
    (s.CreateAction nm lnm ty paths ok nh).1.m_instance = s.m_instance := by
  cases hres : StringsToPaths s.m_instance paths with
  | none => simp [ActionSet.CreateAction, hres]
  | some rp => cases ok <;> simp [ActionSet.CreateAction, hres]

theorem CreateAction_declared_mem (s : ActionSet) (nm lnm : String)
    (ty : XrActionType) (paths : List String) (ok : Bool) (nh : XrAction)
    (q : XrPath) :
    q ∈ (s.CreateAction nm lnm ty paths ok nh).1.m_declaredSubactionPaths ↔
      q ∈ s.m_declaredSubactionPaths ∨
        ∃ rp, StringsToPaths s.m_instance paths = some rp ∧ q ∈ rp := by
  cases hres : StringsToPaths s.m_instance paths with
  | none => simp [ActionSet.CreateAction, hres]
  | some rp =>
    cases ok <;> simp [ActionSet.CreateAction, hres, mem_foldl_setInsert]

theorem CreateAction_declared_sorted (s : ActionSet) (nm lnm : String)
    (ty : XrActionType) (paths : List String) (ok : Bool) (nh : XrAction)
    (hs : s.m_declaredSubactionPaths.Sorted (· < ·)) :
    (s.CreateAction nm lnm ty paths ok nh).1.m_declaredSubactionPaths.Sorted
      (· < ·) := by
  cases hres : StringsToPaths s.m_instance paths with
  | none => simpa [ActionSet.CreateAction, hres] using hs
  | some rp =>
    cases ok <;> simp only [ActionSet.CreateAction, hres] <;>
      exact sorted_foldl_setInsert rp hs

theorem runCreateActions_nil (s : ActionSet) : runCreateActions s [] = s := rfl

theorem runCreateActions_cons (s : ActionSet) (c : CreateActionCall)
    (rest : List CreateActionCall) :
    runCreateActions s (c :: rest) =
      runCreateActions
        (s.CreateAction c.actionName c.localizedName c.actionType
          c.subactionPaths c.createOk c.newHandle).1 rest := rfl

theorem runCreateActions_m_instance (calls : List CreateActionCall) :
    ∀ s : ActionSet, (runCreateActions s calls).m_instance = s.m_instance := by
  induction calls with
  | nil => intro s; rfl
  | cons c rest ih =>
    intro s
    rw [runCreateActions_cons, ih]
    exact CreateAction_m_instance ..

theorem runCreateActions_declared_mem (calls : List CreateActionCall) :
    ∀ (s : ActionSet) (q : XrPath),
      q ∈ (runCreateActions s calls).m_declaredSubactionPaths ↔
        q ∈ s.m_declaredSubactionPaths ∨
          ∃ c ∈ calls, ∃ rp,
            StringsToPaths s.m_instance c.subactionPaths = some rp ∧ q ∈ rp := by
  induction calls with
  | nil => simp [runCreateActions]
  | cons c rest ih =>
    intro s q
    rw [runCreateActions_cons, ih, CreateAction_declared_mem,
      CreateAction_m_instance]
    simp only [List.mem_cons]
    constructor
    · rintro ((hq | ⟨rp, hrp, hq⟩) | ⟨c', hc', rp, hrp, hq⟩)
      · exact Or.inl hq
      · exact Or.inr ⟨c, Or.inl rfl, rp, hrp, hq⟩
      · exact Or.inr ⟨c', Or.inr hc', rp, hrp, hq⟩
    · rintro (hq | ⟨c', hc' | hc', rp, hrp, hq⟩)
      · exact Or.inl (Or.inl hq)
      · exact Or.inl (Or.inr ⟨rp, hc' ▸ hrp, hq⟩)
      · exact Or.inr ⟨c', hc', rp, hrp, hq⟩

theorem runCreateActions_declared_sorted (calls : List CreateActionCall) :
    ∀ s : ActionSet, s.m_declaredSubactionPaths.Sorted (· < ·) →
      (runCreateActions s calls).m_declaredSubactionPaths.Sorted (· < ·) := by
  induction calls with
  | nil => intro s hs; exact hs
  | cons c rest ih =>
    intro s hs
    rw [runCreateActions_cons]
    exact ih _ (CreateAction_declared_sorted _ _ _ _ _ _ _ hs)

theorem runCreateActions_append (s : ActionSet)
    (cs1 cs2 : List CreateActionCall) :
    runCreateActions s (cs1 ++ cs2) =
      runCreateActions (runCreateActions s cs1) cs2 := by
  simp [runCreateActions, List.foldl_append]

/-! ## Lemmas about the association-list map model -/

theorem mapLookup_mapAppend {α : Type} (k P : XrPath) (v : α)
    (m : List (XrPath × List α)) :
    mapLookup P (mapAppend k v m) =
      if k = P then mapLookup P m ++ [v] else mapLookup P m := by
  induction m with
  | nil => by_cases h : k = P <;> simp [mapAppend, mapLookup, h]
  | cons kv rest ih =>
    obtain ⟨k', vs⟩ := kv
    by_cases h1 : k' = k
    · subst h1
      by_cases h2 : k' = P <;> simp [mapAppend, mapLookup, h2]
    · by_cases h2 : k' = P
      · subst h2
        have hk : ¬k = k' := fun e => h1 (Eq.symm e)
        simp [mapAppend, mapLookup, h1, hk]
      · simp [mapAppend, mapLookup, h1, h2, ih]

theorem mapLookup_foldl_mapAppend {α : Type} (rs : List (XrPath × α)) :
    ∀ (m : List (XrPath × List α)) (P : XrPath),
      mapLookup P (rs.foldl (fun m kr => mapAppend kr.1 kr.2 m) m) =
        mapLookup P m ++
          (rs.filter (fun kr => kr.1 = P)).map (fun kr => kr.2) := by
  induction rs with
  | nil => simp
  | cons kr rest ih =>
    intro m P
    simp only [List.foldl_cons]
    rw [ih, mapLookup_mapAppend]
    by_cases h : kr.1 = P <;> simp [h, List.filter_cons]

theorem mapLookup_foldl_mapAppend_const {α : Type} (k : XrPath) (bs : List α) :
    ∀ (m : List (XrPath × List α)) (P : XrPath),
      mapLookup P (bs.foldl (fun m ab => mapAppend k ab m) m) =
        if k = P then mapLookup P m ++ bs else mapLookup P m := by
  induction bs with
  | nil => intro m P; by_cases h : k = P <;> simp [h]
  | cons b rest ih =>
    intro m P
    simp only [List.foldl_cons]
    rw [ih, mapLookup_mapAppend]
    by_cases h : k = P <;> simp [h]

theorem keys_mapAppend {α : Type} (k : XrPath) (v : α)
    (m : List (XrPath × List α)) :
    (mapAppend k v m).map Prod.fst =
      if k ∈ m.map Prod.fst then m.map Prod.fst
      else m.map Prod.fst ++ [k] := by
  induction m with
  | nil => simp [mapAppend]
  | cons kv rest ih =>
    obtain ⟨k', vs⟩ := kv
    by_cases h : k' = k
    · subst h
      simp [mapAppend]
    · have hk : ¬k = k' := fun e => h (Eq.symm e)
      simp only [mapAppend, if_neg h, List.map_cons, ih]
      by_cases h2 : k ∈ rest.map Prod.fst <;>
        simp [h2, List.mem_cons, hk]

theorem keys_nodup_foldl_mapAppend {α : Type} (rs : List (XrPath × α)) :
    ∀ m : List (XrPath × List α), (m.map Prod.fst).Nodup →
      (((rs.foldl (fun m kr => mapAppend kr.1 kr.2 m) m).map Prod.fst)).Nodup := by
  induction rs with
  | nil => intro m h; exact h
  | cons kr rest ih =>
    intro m h
    simp only [List.foldl_cons]
    refine ih _ ?_
    rw [keys_mapAppend]
    split
    · exact h
    · rename_i hk
      refine List.Nodup.append h (List.nodup_singleton kr.1) ?_
      intro a ha ha'
      rw [List.mem_singleton] at ha'
      exact hk (ha' ▸ ha)

/-! ## Lemmas about binding-string resolution -/

theorem resolveTriples_filter (inst : Instance) (P : XrPath) :
    ∀ (l : List (XrPath × XrAction × String))
      (r : List (XrPath × XrActionSuggestedBinding)),
      resolveTriples inst l = some r →
      resolveTriples inst (l.filter (fun t => t.1 = P)) =
        some (r.filter (fun kr => kr.1 = P)) := by
  intro l
  induction l with
  | nil =>
    intro r h
    simp only [resolveTriples, Option.some.injEq] at h
    subst h
    simp [resolveTriples]
  | cons t rest ih =>
    intro r h
    obtain ⟨pp, ap, bs⟩ := t
    simp only [resolveTriples] at h
    cases hs : StringToPath inst bs with
    | none => rw [hs] at h; cases h
    | some bp =>
      cases hr : resolveTriples inst rest with
      | none => rw [hs, hr] at h; cases h
      | some rs =>
        rw [hs, hr] at h
        simp only [Option.some.injEq] at h
        subst h
        by_cases hp : pp = P
        · subst hp
          simp [List.filter_cons, resolveTriples, hs, ih rs hr]
        · simp [List.filter_cons, hp, ih rs hr]

theorem resolvePairs_of_resolveTriples (inst : Instance) :
    ∀ (l : List (XrPath × XrAction × String))
      (r : List (XrPath × XrActionSuggestedBinding)),
      resolveTriples inst l = some r →
      resolvePairs inst (l.map (fun t => t.2)) =
        some (r.map (fun kr => kr.2)) := by
  intro l
  induction l with
  | nil =>
    intro r h
    simp only [resolveTriples, Option.some.injEq] at h
    subst h
    simp [resolvePairs]
  | cons t rest ih =>
    intro r h
    obtain ⟨pp, ap, bs⟩ := t
    simp only [resolveTriples] at h
    cases hs : StringToPath inst bs with
    | none => rw [hs] at h; cases h
    | some bp =>
      cases hr : resolveTriples inst rest with
      | none => rw [hs, hr] at h; cases h
      | some rs =>
        rw [hs, hr] at h
        simp only [Option.some.injEq] at h
        subst h
        simp [resolvePairs, hs, ih rs hr]

/-! ## Lemmas about the suggestion phase and call traces -/

theorem suggestPhase_all_ok (rt : Runtime) :
    ∀ m : List (XrPath × List XrActionSuggestedBinding),
      (∀ pb ∈ m, rt.suggestOk pb.1 pb.2 = true) →
      suggestPhase rt m =
        (.ok (), m.map (fun pb => XrCall.suggestBindings pb.1 pb.2)) := by
  intro m
  induction m with
  | nil => intro _; rfl
  | cons pb rest ih =>
    intro h
    obtain ⟨p, bs⟩ := pb
    have hp : rt.suggestOk p bs = true := h (p, bs) (List.mem_cons_self _ _)
    have hr := ih (fun x hx => h x (List.mem_cons_of_mem _ hx))
    simp [suggestPhase, hp, hr]

theorem suggestPhase_first_failure (rt : Runtime) :
    ∀ (m1 : List (XrPath × List XrActionSuggestedBinding)) (p : XrPath)
      (bs : List XrActionSuggestedBinding)
      (m2 : List (XrPath × List XrActionSuggestedBinding)),
      (∀ pb ∈ m1, rt.suggestOk pb.1 pb.2 = true) →
      rt.suggestOk p bs = false →
      suggestPhase rt (m1 ++ (p, bs) :: m2) =
        (.error .runtimeFailure,
         m1.map (fun pb => XrCall.suggestBindings pb.1 pb.2) ++
           [XrCall.suggestBindings p bs]) := by
  intro m1
  induction m1 with
  | nil =>
    intro p bs m2 _ hf
    simp [suggestPhase, hf]
  | cons pb rest ih =>
    intro p bs m2 h hf
    obtain ⟨p', bs'⟩ := pb
    have hp : rt.suggestOk p' bs' = true := h (p', bs') (List.mem_cons_self _ _)
    have hr := ih p bs m2 (fun x hx => h x (List.mem_cons_of_mem _ hx)) hf
    simp [suggestPhase, hp, hr]

theorem filter_isSuggest_suggestCalls
    (m : List (XrPath × List XrActionSuggestedBinding)) :
    (m.map (fun pb => XrCall.suggestBindings pb.1 pb.2)).filter
        XrCall.isSuggest =
      m.map (fun pb => XrCall.suggestBindings pb.1 pb.2) := by
  induction m with
  | nil => rfl
  | cons pb rest ih => simp [XrCall.isSuggest, ih]

theorem filter_isAttach_suggestCalls
    (m : List (XrPath × List XrActionSuggestedBinding)) :
    (m.map (fun pb => XrCall.suggestBindings pb.1 pb.2)).filter
        XrCall.isAttach = [] := by
  induction m with
  | nil => rfl
  | cons pb rest ih => simp [XrCall.isAttach, ih]

theorem filter_flatMap {α β : Type} (l : List α) (f : α → List β)
    (p : β → Bool) :
    (l.flatMap f).filter p = l.flatMap (fun x => (f x).filter p) := by
  induction l with
  | nil => rfl
  | cons a rest ih => simp [List.flatMap_cons, List.filter_append, ih]

theorem map_flatMap {α β γ : Type} (l : List α) (f : α → List β) (g : β → γ) :
    (l.flatMap f).map g = l.flatMap (fun x => (f x).map g) := by
  induction l with
  | nil => rfl
  | cons a rest ih => simp [List.flatMap_cons, ih]

/-! ## Concrete data used by the witnesses -/

/-- A concrete resolution table: the two hand paths resolve, everything
else fails. -/
def instW : Instance :=
  ⟨fun s =>
    if s = "/user/hand/left" then some 1
    else if s = "/user/hand/right" then some 2
    else if s = "/interaction_profiles/khr/simple_controller" then some 7
    else none⟩

/-- A concrete fresh `ActionSet` with handle 10. -/
def setW : ActionSet := ActionSet.create instW 10

/-- A concrete `CreateAction` call declaring both hand paths. -/
def callW1 : CreateActionCall :=
  ⟨"jump", "Jump", 1, ["/user/hand/left", "/user/hand/right"], true, 100⟩

/-- A concrete `CreateAction` call declaring only the right hand path. -/
def callW2 : CreateActionCall :=
  ⟨"select", "Select", 1, ["/user/hand/right"], true, 101⟩

/-- A concrete empty context over `instW`. -/
def ctxW : ActionContext := ActionContext.create instW

/-- A concrete context that suggested one left-hand binding on the simple
controller profile. -/
def ctxWA : ActionContext :=
  (ctxW.SuggestInteractionProfileBindings
    "/interaction_profiles/khr/simple_controller" [(100, "/user/hand/left")]).1

/-- A concrete context that suggested one right-hand binding on the same
profile. -/
def ctxWB : ActionContext :=
  (ctxW.SuggestInteractionProfileBindings
    "/interaction_profiles/khr/simple_controller" [(101, "/user/hand/right")]).1

/-- A runtime oracle on which every native call succeeds. -/
def rtW : Runtime := ⟨fun _ _ => true, fun _ => true, fun _ => true⟩

/-- A runtime oracle on which every binding-suggestion call fails. -/
def rtWFail : Runtime := ⟨fun _ _ => false, fun _ => true, fun _ => true⟩

/-- A concrete context owning two action sets (handles 10 and 11; the first
with declared subaction paths 1 and 2, the second with none) and no pending
bindings. -/
def ctxWSets : ActionContext :=
  { m_instance := instW
    m_actionSets := [runCreateActions setW [callW1], ActionSet.create instW 11]
    m_actionBindings := [] }

/-! ## Claims -/

/-- C1: per owned `ActionSet`, `SyncActions` accumulates zero activation
records if the set is inactive; exactly one record pairing the set's handle
with `XR_NULL_PATH` if it is active with no declared subaction paths; and
exactly one record per declared subaction path, each paired with the set's
handle, if it is active with declared paths. -/
theorem C1_sync_activation_records (actionContexts : List ActionContext)
    (s : ActionSet) :
    syncRecords actionContexts =
        actionContexts.flatMap (fun c => c.m_actionSets.flatMap syncRecordsForSet)
      ∧ (s.Active = false → syncRecordsForSet s = [])
      ∧ (s.Active = true → s.DeclaredSubactionPaths = [] →
          syncRecordsForSet s = [⟨s.Handle, XR_NULL_PATH⟩])
      ∧ (s.Active = true → s.DeclaredSubactionPaths ≠ [] →
          syncRecordsForSet s =
              s.DeclaredSubactionPaths.map (fun p => ⟨s.Handle, p⟩)
            ∧ (syncRecordsForSet s).length = s.DeclaredSubactionPaths.length) := by
  refine ⟨rfl, ?_, ?_, ?_⟩
  · intro h
    simp [syncRecordsForSet, h]
  · intro h1 h2
    simp [syncRecordsForSet, h1, h2]
  · intro h1 h2
    constructor
    · simp [syncRecordsForSet, h1, h2]
    · simp [syncRecordsForSet, h1, h2]

/-- Witness for C1 on a concrete state: an active set with declared paths
`[1, 2]` yields the two records, and its deactivated copy yields none. -/
theorem C1_sync_activation_records_witness :
    syncRecordsForSet (runCreateActions setW [callW1]) =
        [⟨10, 1⟩, ⟨10, 2⟩]
      ∧ syncRecordsForSet ((runCreateActions setW [callW1]).SetActive false) =
        [] := by
  constructor
  · have h :=
      ((C1_sync_activation_records [] (runCreateActions setW [callW1])).2.2.2
        (by decide) (by decide)).1
    rw [h]
    decide
  · exact (C1_sync_activation_records []
      ((runCreateActions setW [callW1]).SetActive false)).2.1 (by decide)

/-- C2: after any sequence of `CreateAction` calls on one `ActionSet`,
`DeclaredSubactionPaths()` holds exactly the union of the previously declared
paths and every resolved subaction path of the calls, with no duplicates; the
resulting list is the same for any permutation of the calls; and the declared
set never shrinks as further actions are added. -/
theorem C2_declared_paths_union (s : ActionSet) (calls : List CreateActionCall)
    (hsorted : s.m_declaredSubactionPaths.Sorted (· < ·)) :
    (∀ q, q ∈ (runCreateActions s calls).DeclaredSubactionPaths ↔
        q ∈ s.DeclaredSubactionPaths ∨
          ∃ c ∈ calls, ∃ rp,
            StringsToPaths s.m_instance c.subactionPaths = some rp ∧ q ∈ rp)
      ∧ (runCreateActions s calls).DeclaredSubactionPaths.Nodup
      ∧ (∀ calls2, calls.Perm calls2 →
          (runCreateActions s calls2).DeclaredSubactionPaths =
            (runCreateActions s calls).DeclaredSubactionPaths)
      ∧ (∀ more : List CreateActionCall,
          ∀ q ∈ (runCreateActions s calls).DeclaredSubactionPaths,
            q ∈ (runCreateActions s (calls ++ more)).DeclaredSubactionPaths) := by
  refine ⟨fun q => runCreateActions_declared_mem calls s q, ?_, ?_, ?_⟩
  · exact (runCreateActions_declared_sorted calls s hsorted).nodup
  · intro calls2 hperm
    refine sorted_eq_of_mem_iff
      (runCreateActions_declared_sorted calls2 s hsorted)
      (runCreateActions_declared_sorted calls s hsorted) ?_
    intro q
    simp only [ActionSet.DeclaredSubactionPaths]
    rw [runCreateActions_declared_mem, runCreateActions_declared_mem]
    refine or_congr Iff.rfl ?_
    exact ⟨fun ⟨c, hc, hr⟩ => ⟨c, hperm.mem_iff.2 hc, hr⟩,
      fun ⟨c, hc, hr⟩ => ⟨c, hperm.mem_iff.1 hc, hr⟩⟩
  · intro more q hq
    rw [runCreateActions_append]
    exact (runCreateActions_declared_mem more (runCreateActions s calls) q).2
      (Or.inl hq)

/-- Witness for C2 on a concrete state: the two calls in either order leave
the declared set equal to `[1, 2]`. -/
theorem C2_declared_paths_union_witness :
    (runCreateActions setW [callW2, callW1]).DeclaredSubactionPaths =
        (runCreateActions setW [callW1, callW2]).DeclaredSubactionPaths
      ∧ (runCreateActions setW [callW1, callW2]).DeclaredSubactionPaths =
        [1, 2] := by
  constructor
  · exact (C2_declared_paths_union setW [callW1, callW2] (by decide)).2.2.1
      [callW2, callW1] (List.Perm.swap callW2 callW1 [])
  · decide

/-- C3: the merged binding list built for a profile in the attach phase is the
resolved concatenation, in order and without dropping or deduplicating any
entry, of every context's accumulated (action, binding-path) pairs for that
profile; and a `SuggestInteractionProfileBindings` call appends its pairs to
the profile's pending list without deduplication. -/
theorem C3_merged_bindings_concat (inst : Instance)
    (actionContexts : List ActionContext) (P : XrPath)
    (m : List (XrPath × List XrActionSuggestedBinding))
    (hm : mergeBindings inst actionContexts = some m) :
    resolvePairs inst (actionContexts.flatMap (fun c => contextPairsFor P c)) =
        some (mapLookup P m)
      ∧ (∀ (ctx : ActionContext) (ip : String)
          (bs : List (XrAction × String)) (profilePath : XrPath),
          StringToPath ctx.m_instance ip = some profilePath →
          mapLookup profilePath
              ((ctx.SuggestInteractionProfileBindings ip bs).1.m_actionBindings) =
            mapLookup profilePath ctx.m_actionBindings ++ bs) := by
  constructor
  · cases hr : resolveTriples inst (allTriples actionContexts) with
    | none => rw [mergeBindings, hr] at hm; cases hm
    | some r =>
      rw [mergeBindings, hr] at hm
      simp only [Option.map_some', Option.some.injEq] at hm
      subst hm
      have hflat : actionContexts.flatMap (fun c => contextPairsFor P c) =
          ((allTriples actionContexts).filter (fun t => t.1 = P)).map
            (fun t => t.2) := by
        simp only [contextPairsFor, allTriples]
        rw [filter_flatMap, map_flatMap]
      rw [hflat]
      rw [resolvePairs_of_resolveTriples inst _ _
        (resolveTriples_filter inst P _ r hr)]
      rw [mapLookup_foldl_mapAppend]
      rfl
  · intro ctx ip bs profilePath hp
    simp only [ActionContext.SuggestInteractionProfileBindings, StringToPath] at *
    rw [hp]
    rw [mapLookup_foldl_mapAppend_const]
    simp

/-- Witness for C3 on concrete contexts: two contexts with one binding each on
the same profile merge into the two-element concatenated list. -/
theorem C3_merged_bindings_concat_witness :
    resolvePairs instW ([ctxWA, ctxWB].flatMap (fun c => contextPairsFor 7 c)) =
      some (mapLookup 7 [(7, [⟨100, 1⟩, ⟨101, 2⟩])]) :=
  (C3_merged_bindings_concat instW [ctxWA, ctxWB] 7
    [(7, [⟨100, 1⟩, ⟨101, 2⟩])] (by decide)).1

theorem AttachActionsToSession_trace_ok (inst : Instance) (rt : Runtime)
    (actionContexts : List ActionContext)
    (m : List (XrPath × List XrActionSuggestedBinding))
    (hm : mergeBindings inst actionContexts = some m)
    (hok : ∀ pb ∈ m, rt.suggestOk pb.1 pb.2 = true) :
    (AttachActionsToSession inst rt actionContexts).2 =
      m.map (fun pb => XrCall.suggestBindings pb.1 pb.2) ++
        (if (collectActionSetHandles actionContexts).isEmpty then []
         else [XrCall.attachSessionActionSets
            (collectActionSetHandles actionContexts)]) := by
  simp only [AttachActionsToSession, hm]
  rw [suggestPhase_all_ok rt m hok]
  by_cases he : (collectActionSetHandles actionContexts).isEmpty
  · simp [he]
  · by_cases ha : rt.attachOk (collectActionSetHandles actionContexts) <;>
      simp [he, ha]

/-- C4: `AttachActionsToSession` issues exactly one binding-suggestion call
per distinct interaction profile of the merged mapping (the mapping's keys
are pairwise distinct), carrying that profile's full merged record list; and
when one profile's suggestion call fails, the error propagates at once: no
suggestion call is issued for the remaining profiles and no attach call is
made. -/
theorem C4_one_suggestion_per_profile (inst : Instance) (rt : Runtime)
    (actionContexts : List ActionContext)
    (m : List (XrPath × List XrActionSuggestedBinding))
    (hm : mergeBindings inst actionContexts = some m) :
    (m.map Prod.fst).Nodup
      ∧ ((∀ pb ∈ m, rt.suggestOk pb.1 pb.2 = true) →
          (AttachActionsToSession inst rt actionContexts).2.filter
              XrCall.isSuggest =
            m.map (fun pb => XrCall.suggestBindings pb.1 pb.2))
      ∧ (∀ m1 p bs m2, m = m1 ++ (p, bs) :: m2 →
          (∀ pb ∈ m1, rt.suggestOk pb.1 pb.2 = true) →
          rt.suggestOk p bs = false →
          AttachActionsToSession inst rt actionContexts =
            (.error .runtimeFailure,
             m1.map (fun pb => XrCall.suggestBindings pb.1 pb.2) ++
               [XrCall.suggestBindings p bs])) := by
  refine ⟨?_, ?_, ?_⟩
  · cases hr : resolveTriples inst (allTriples actionContexts) with
    | none => rw [mergeBindings, hr] at hm; cases hm
    | some r =>
      rw [mergeBindings, hr] at hm
      simp only [Option.map_some', Option.some.injEq] at hm
      subst hm
      exact keys_nodup_foldl_mapAppend r [] (by simp)
  · intro hok
    rw [AttachActionsToSession_trace_ok inst rt actionContexts m hm hok,
      List.filter_append, filter_isSuggest_suggestCalls]
    by_cases he : (collectActionSetHandles actionContexts).isEmpty <;>
      simp [he, XrCall.isSuggest]
  · intro m1 p bs m2 hsplit h1 hf
    subst hsplit
    simp only [AttachActionsToSession, hm]
    rw [suggestPhase_first_failure rt m1 p bs m2 h1 hf]

/-- Witness for C4 on concrete contexts: with a runtime failing every
suggestion call, attaching the two one-binding contexts issues only the first
(and only) profile's call and stops with a runtime failure. -/
theorem C4_one_suggestion_per_profile_witness :
    AttachActionsToSession instW rtWFail [ctxWA, ctxWB] =
      (.error .runtimeFailure, [XrCall.suggestBindings 7 [⟨100, 1⟩, ⟨101, 2⟩]]) := by
  have h := (C4_one_suggestion_per_profile instW rtWFail [ctxWA, ctxWB]
    [(7, [⟨100, 1⟩, ⟨101, 2⟩])] (by decide)).2.2
    [] 7 [⟨100, 1⟩, ⟨101, 2⟩] [] rfl (by simp) (by decide)
  simpa using h

/-- C5: the attach-phase handle sequence is every context's action-set
handles, in context order then within-context creation order, and it contains
a handle exactly when some context owns a set with that handle; if this
sequence is non-empty, exactly one attach call carrying the full sequence is
issued, and if it is empty, no attach call is made. -/
theorem C5_attach_phase_handles (inst : Instance) (rt : Runtime)
    (actionContexts : List ActionContext)
    (m : List (XrPath × List XrActionSuggestedBinding))
    (hm : mergeBindings inst actionContexts = some m)
    (hok : ∀ pb ∈ m, rt.suggestOk pb.1 pb.2 = true) :
    collectActionSetHandles actionContexts =
        actionContexts.flatMap (fun c => c.m_actionSets.map ActionSet.Handle)
      ∧ (∀ h : XrActionSet, h ∈ collectActionSetHandles actionContexts ↔
          ∃ c ∈ actionContexts, ∃ s ∈ c.m_actionSets, s.Handle = h)
      ∧ (collectActionSetHandles actionContexts = [] →
          (AttachActionsToSession inst rt actionContexts).2.filter
              XrCall.isAttach = [])
      ∧ (collectActionSetHandles actionContexts ≠ [] →
          (AttachActionsToSession inst rt actionContexts).2.filter
              XrCall.isAttach =
            [XrCall.attachSessionActionSets
              (collectActionSetHandles actionContexts)]) := by
  refine ⟨rfl, ?_, ?_, ?_⟩
  · intro h
    simp [collectActionSetHandles, List.mem_flatMap, List.mem_map]
  · intro hempt
    rw [AttachActionsToSession_trace_ok inst rt actionContexts m hm hok]
    simp [hempt, List.filter_append, filter_isAttach_suggestCalls]
  · intro hne
    rw [AttachActionsToSession_trace_ok inst rt actionContexts m hm hok]
    have he : (collectActionSetHandles actionContexts).isEmpty = false := by
      cases hc : collectActionSetHandles actionContexts with
      | nil => exact absurd hc hne
      | cons a l => rfl
    simp [he, List.filter_append, filter_isAttach_suggestCalls, XrCall.isAttach]

/-- Witness for C5 on concrete contexts: two set-less contexts trigger no
attach call; a context owning sets 10 and 11 triggers exactly one attach call
with both handles. -/
theorem C5_attach_phase_handles_witness :
    (AttachActionsToSession instW rtW [ctxWA, ctxWB]).2.filter
        XrCall.isAttach = []
      ∧ (AttachActionsToSession instW rtW [ctxWSets]).2.filter
        XrCall.isAttach = [XrCall.attachSessionActionSets [10, 11]] := by
  constructor
  · exact (C5_attach_phase_handles instW rtW [ctxWA, ctxWB]
      [(7, [⟨100, 1⟩, ⟨101, 2⟩])] (by decide) (by decide)).2.2.1 rfl
  · have h := (C5_attach_phase_handles instW rtW [ctxWSets] []
      (by decide) (by simp)).2.2.2 (by decide)
    rw [h]
    decide

/-- C6: `SyncActions` accumulates all activation records into one flat
sequence; if it is empty no sync call is made at all, and if it is non-empty
exactly one sync call carrying the full sequence is issued. -/
theorem C6_sync_single_call (rt : Runtime) (actionContexts : List ActionContext) :
    (syncRecords actionContexts = [] →
        SyncActions rt actionContexts = (.ok (), []))
      ∧ (syncRecords actionContexts ≠ [] →
          (SyncActions rt actionContexts).2 =
            [XrCall.syncActions (syncRecords actionContexts)]) := by
  constructor
  · intro h
    simp [SyncActions, h]
  · intro h
    have he : (syncRecords actionContexts).isEmpty = false := by
      cases hc : syncRecords actionContexts with
      | nil => exact absurd hc h
      | cons a l => rfl
    by_cases hs : rt.syncOk (syncRecords actionContexts) <;>
      simp [SyncActions, he, hs]

/-- Witness for C6 on concrete contexts: no contexts means no sync call;
the two-set context yields one sync call with its three records. -/
theorem C6_sync_single_call_witness :
    SyncActions rtW [] = (.ok (), [])
      ∧ (SyncActions rtW [ctxWSets]).2 =
        [XrCall.syncActions [⟨10, 1⟩, ⟨10, 2⟩, ⟨11, 0⟩]] := by
  constructor
  · exact (C6_sync_single_call rtW []).1 rfl
  · have h := (C6_sync_single_call rtW [ctxWSets]).2 (by decide)
    rw [h]
    decide

/-- C7: every resolution failure propagates immediately with no partial state:
a failing profile string leaves `SuggestInteractionProfileBindings`'s table
unchanged, a failing subaction path leaves `CreateAction`'s declared-path set
and action list unchanged, and a failing binding path makes
`AttachActionsToSession` return before any native call is issued. -/
theorem C7_resolution_failure_atomic :
    (∀ (ctx : ActionContext) (ip : String) (bs : List (XrAction × String)),
        StringToPath ctx.m_instance ip = none →
        ctx.SuggestInteractionProfileBindings ip bs =
          (ctx, .error .resolutionFailure))
      ∧ (∀ (s : ActionSet) (nm lnm : String) (ty : XrActionType)
          (paths : List String) (ok : Bool) (nh : XrAction),
          StringsToPaths s.m_instance paths = none →
          s.CreateAction nm lnm ty paths ok nh = (s, .error .resolutionFailure))
      ∧ (∀ (inst : Instance) (rt : Runtime) (ctxs : List ActionContext),
          mergeBindings inst ctxs = none →
          AttachActionsToSession inst rt ctxs =
            (.error .resolutionFailure, [])) := by
  refine ⟨?_, ?_, ?_⟩
  · intro ctx ip bs h
    simp [ActionContext.SuggestInteractionProfileBindings, StringToPath] at *
    simp [h]
  · intro s nm lnm ty paths ok nh h
    simp [ActionSet.CreateAction, h]
  · intro inst rt ctxs h
    simp [AttachActionsToSession, h]

/-- Witness for C7 on concrete inputs: an unresolvable profile string, an
unresolvable subaction path and an unresolvable binding string each fail
cleanly. -/
theorem C7_resolution_failure_atomic_witness :
    ctxW.SuggestInteractionProfileBindings "bogus" [(5, "x")] =
        (ctxW, .error .resolutionFailure)
      ∧ setW.CreateAction "jump" "Jump" 1 ["bogus"] true 100 =
        (setW, .error .resolutionFailure)
      ∧ AttachActionsToSession instW rtW
          [(ctxW.SuggestInteractionProfileBindings
            "/interaction_profiles/khr/simple_controller" [(5, "bogus")]).1] =
        (.error .resolutionFailure, []) := by
  refine ⟨?_, ?_, ?_⟩
  · exact C7_resolution_failure_atomic.1 ctxW "bogus" [(5, "x")] (by decide)
  · exact C7_resolution_failure_atomic.2.1 setW "jump" "Jump" 1 ["bogus"]
      true 100 (by decide)
  · exact C7_resolution_failure_atomic.2.2 instW rtW _ (by decide)

/-- C8: when the subaction paths of a `CreateAction` call resolve but the
native `xrCreateAction` call fails, the resolved paths have already been
inserted into the declared-path set and stay there, while no action handle is
appended; the error then propagates. -/
theorem C8_create_failure_nonatomic (s : ActionSet) (nm lnm : String)
    (ty : XrActionType) (paths : List String) (nh : XrAction)
    (rp : List XrPath)
    (hres : StringsToPaths s.m_instance paths = some rp) :
    (∀ p ∈ rp,
        p ∈ (s.CreateAction nm lnm ty paths false nh).1.m_declaredSubactionPaths)
      ∧ (s.CreateAction nm lnm ty paths false nh).1.m_actions = s.m_actions
      ∧ (s.CreateAction nm lnm ty paths false nh).2 =
        .error .createFailure := by
  refine ⟨?_, ?_, ?_⟩
  · intro p hp
    rw [CreateAction_declared_mem]
    exact Or.inr ⟨rp, hres, hp⟩
  · simp [ActionSet.CreateAction, hres]
  · simp [ActionSet.CreateAction, hres]

/-- Witness for C8 on a concrete input: a failing creation on the left-hand
path leaves path 1 declared, the action list empty, and returns the creation
error. -/
theorem C8_create_failure_nonatomic_witness :
    1 ∈ (setW.CreateAction "jump" "Jump" 1 ["/user/hand/left"]
          false 100).1.m_declaredSubactionPaths
      ∧ (setW.CreateAction "jump" "Jump" 1 ["/user/hand/left"]
          false 100).1.m_actions = setW.m_actions := by
  have h := C8_create_failure_nonatomic setW "jump" "Jump" 1
    ["/user/hand/left"] 100 [1] (by decide)
  exact ⟨h.1 1 (by decide), h.2.1⟩

theorem syncRecordsForSet_congr_obs (s1 s2 : ActionSet)
    (h : s1.syncObs = s2.syncObs) :
    syncRecordsForSet s1 = syncRecordsForSet s2 := by
  have h1 : s1.Handle = s2.Handle := congrArg Prod.fst h
  have h2 : s1.Active = s2.Active := congrArg (fun x => x.2.1) h
  have h3 : s1.m_declaredSubactionPaths = s2.m_declaredSubactionPaths :=
    congrArg (fun x => x.2.2) h
  simp only [syncRecordsForSet, ActionSet.DeclaredSubactionPaths, h1, h2, h3]

theorem flatMap_syncRecordsForSet_obs :
    ∀ l1 l2 : List ActionSet,
      l1.map ActionSet.syncObs = l2.map ActionSet.syncObs →
      l1.flatMap syncRecordsForSet = l2.flatMap syncRecordsForSet := by
  intro l1
  induction l1 with
  | nil =>
    intro l2 h
    cases l2 with
    | nil => rfl
    | cons s rest => simp at h
  | cons s rest ih =>
    intro l2 h
    cases l2 with
    | nil => simp at h
    | cons s2 rest2 =>
      simp only [List.map_cons, List.cons.injEq] at h
      simp only [List.flatMap_cons]
      rw [syncRecordsForSet_congr_obs s s2 h.1, ih rest2 h.2]

theorem syncRecords_congr_obs :
    ∀ l1 l2 : List ActionContext,
      l1.map (fun c => c.m_actionSets.map ActionSet.syncObs) =
        l2.map (fun c => c.m_actionSets.map ActionSet.syncObs) →
      syncRecords l1 = syncRecords l2 := by
  intro l1
  induction l1 with
  | nil =>
    intro l2 h
    cases l2 with
    | nil => rfl
    | cons c rest => simp at h
  | cons c rest ih =>
    intro l2 h
    cases l2 with
    | nil => simp at h
    | cons c2 rest2 =>
      simp only [List.map_cons, List.cons.injEq] at h
      simp only [syncRecords, List.flatMap_cons]
      have h1 := flatMap_syncRecordsForSet_obs c.m_actionSets c2.m_actionSets h.1
      have h2 := ih rest2 h.2
      simp only [syncRecords] at h2
      rw [h1, h2]

/-- C10: `SyncActions` is deterministic — its behaviour, including the order
of the records emitted for each set's declared-path `std::set`, is a function
only of each set's handle, activation flag and declared path set: two states
agreeing on those produce identical sync calls, and two sets with the same
handle, flag and declared-path membership (their sorted representations)
produce the same record sequence. -/
theorem C10_sync_deterministic :
    (∀ s1 s2 : ActionSet, s1.Handle = s2.Handle → s1.Active = s2.Active →
        s1.m_declaredSubactionPaths.Sorted (· < ·) →
        s2.m_declaredSubactionPaths.Sorted (· < ·) →
        (∀ p, p ∈ s1.m_declaredSubactionPaths ↔
          p ∈ s2.m_declaredSubactionPaths) →
        syncRecordsForSet s1 = syncRecordsForSet s2)
      ∧ (∀ (rt : Runtime) (ctxs1 ctxs2 : List ActionContext),
          ctxs1.map (fun c => c.m_actionSets.map ActionSet.syncObs) =
            ctxs2.map (fun c => c.m_actionSets.map ActionSet.syncObs) →
          SyncActions rt ctxs1 = SyncActions rt ctxs2) := by
  constructor
  · intro s1 s2 hh ha hs1 hs2 hmem
    have hd := sorted_eq_of_mem_iff hs1 hs2 hmem
    exact syncRecordsForSet_congr_obs s1 s2
      (by simp [ActionSet.syncObs, hh, ha, hd])
  · intro rt ctxs1 ctxs2 h
    have hrec := syncRecords_congr_obs ctxs1 ctxs2 h
    simp only [SyncActions, hrec]

/-- Witness for C10 on concrete contexts: two contexts with identical set
state but different pending-binding tables produce the same sync call. -/
theorem C10_sync_deterministic_witness :
    SyncActions rtW [ctxWA] = SyncActions rtW [ctxWB] :=
  C10_sync_deterministic.2 rtW [ctxWA] [ctxWB] (by decide)

end xr
